import Mathlib

/-!
Verification of the FocusNoiseCLI ambient audio engine (audio_manager.py) and
session lifecycle controller (main.py).

The Python code is shallowly embedded: strings are `String`/`List Char`,
wall-clock times and volumes are exact rationals `ℚ`, and every random draw
(`random.uniform`, `random.choice`) is passed in explicitly as a parameter,
with its distributional range recorded as a hypothesis where a claim needs it.
Mutable object state (`AudioManager`'s fields) becomes an explicit record
`AudioState` threaded through the operations.
-/

namespace FocusCLI

/-! ## ASCII string primitives (Python `str.lower`, `in`, `split`, `strip`) -/

/-- ASCII lowercasing of a single character; agrees with Python `str.lower`
on the ASCII category keys and filenames handled by this program. -/
def asciiLower (c : Char) : Char :=
  if 'A' ≤ c ∧ c ≤ 'Z' then Char.ofNat (c.toNat + 32) else c

/-- Lowercase a string given as a character list. -/
def lowerL (s : List Char) : List Char := s.map asciiLower

/-- `startsWithL n h` is true iff `n` is an initial segment of `h`. -/
def startsWithL : List Char → List Char → Bool
  | [], _ => true
  | _ :: _, [] => false
  | a :: n, b :: h => a == b && startsWithL n h

/-- Python's substring test `n in h` (empty `n` is contained in anything). -/
def substrB (n : List Char) : List Char → Bool
  | [] => n.isEmpty
  | b :: h => startsWithL n (b :: h) || substrB n h

/-- The mathematical substring relation: `h` splits as `p ++ n ++ s`. -/
def IsSubstr (n h : List Char) : Prop := ∃ p s, h = p ++ n ++ s

theorem startsWithL_iff (n h : List Char) :
    startsWithL n h = true ↔ ∃ t, h = n ++ t := by
  induction n generalizing h with
  | nil => simp [startsWithL]
  | cons a n ih =>
    cases h with
    | nil => simp [startsWithL]
    | cons b h =>
      simp only [startsWithL, Bool.and_eq_true, beq_iff_eq, ih]
      constructor
      · rintro ⟨rfl, t, rfl⟩
        exact ⟨t, rfl⟩
      · rintro ⟨t, ht⟩
        injection ht with h1 h2
        exact ⟨h1.symm, t, h2⟩

theorem substrB_iff (n h : List Char) : substrB n h = true ↔ IsSubstr n h := by
  induction h with
  | nil =>
    simp only [substrB, List.isEmpty_iff, IsSubstr]
    constructor
    · rintro rfl
      exact ⟨[], [], rfl⟩
    · rintro ⟨p, s, hps⟩
      have := hps.symm
      simp only [List.append_eq_nil] at this
      exact this.1.2
  | cons b h ih =>
    simp only [substrB, Bool.or_eq_true, startsWithL_iff, ih, IsSubstr]
    constructor
    · rintro (⟨t, ht⟩ | ⟨p, s, hps⟩)
      · exact ⟨[], t, by simpa using ht⟩
      · exact ⟨b :: p, s, by simp [hps]⟩
    · rintro ⟨p, s, hps⟩
      cases p with
      | nil =>
        left
        exact ⟨s, by simpa using hps⟩
      | cons x p =>
        right
        injection hps with h1 h2
        exact ⟨p, s, h2⟩

/-! ## Filename normalization (audio_manager.py, play_random_texture)

`loop_name_clean = os.path.splitext(loop_file)[0].replace("_", " ").replace("-", " ").lower()`
-/

/-- Root part of `os.path.splitext` for a plain filename (no directory
separator): drop the suffix starting at the last `'.'`, unless every
character before that dot is itself a dot (then nothing is stripped). -/
def splitextRoot (s : List Char) : List Char :=
  match s.reverse.dropWhile (fun c => c ≠ '.') with
  | [] => s
  | _ :: rest => if rest.any (fun c => c ≠ '.') then rest.reverse else s

/-- Separator replacement followed by lowercasing, applied per character
(`str.replace` with single-character patterns, then `str.lower`). -/
def cleanChar (c : Char) : Char :=
  asciiLower (if c = '_' ∨ c = '-' then ' ' else c)

/-- The code's normalization of an active loop filename. -/
def normalizeLoop (f : String) : List Char :=
  (splitextRoot f.data).map cleanChar

/-- The bidirectional fuzzy containment test from `play_random_texture`:
`key.lower() in loop_name_clean or loop_name_clean in key.lower()`. -/
def matchesKey (cleanName : List Char) (key : String) : Bool :=
  substrB (lowerL key.data) cleanName || substrB cleanName (lowerL key.data)

/-- `TEXTURE_MAP` from audio_manager.py, in source (insertion) order. -/
def TEXTURE_MAP : List (String × List String) :=
  [("Brown Noise", ["keyboard.mp3", "page-turn.mp3", "vinyl-crackle.mp3"]),
   ("City", ["distant-ambulance-siren.mp3", "distant-train.mp3", "bike-bell.mp3",
             "door-open-close-with-bell.mp3"]),
   ("Coffee Shop", ["espresso-steam.mp3", "pouring-coffee.mp3", "spoon-and-cup.mp3",
                    "cup-and-saucer.mp3", "cash-register.mp3"]),
   ("Fire", ["page-turn.mp3", "vinyl-crackle.mp3", "crickets.mp3", "owl.mp3",
             "winter-wind.mp3"]),
   ("Flowing Water", ["frog.mp3", "wind-chimes.mp3", "distant-thunder.mp3"]),
   ("Gentle Rain", ["distant-thunder.mp3", "winter-wind.mp3", "wind-chimes.mp3"]),
   ("Lofi", ["vinyl-crackle.mp3", "keyboard.mp3", "page-turn.mp3", "big-bell.mp3"]),
   ("Omm", ["big-bell.mp3", "wind-chimes.mp3"]),
   ("Rain Sounds", ["distant-thunder.mp3", "winter-wind.mp3"]),
   ("Sea Wave", ["seagull.mp3", "distant-foghorn.mp3", "winter-wind.mp3"])]

/-- The pooled candidate list built by the double loop in
`play_random_texture`: for each active loop, every matching category's
texture list is appended (`valid_textures.extend(textures)`). -/
def validTextures (playing : List String) : List String :=
  playing.foldl (fun acc loopFile =>
    TEXTURE_MAP.foldl (fun acc2 kv =>
      if matchesKey (normalizeLoop loopFile) kv.1 then acc2 ++ kv.2 else acc2) acc) []

/-! ## Spec-side rendering of the fuzzy matching rule (spec §4.3 step 2)

These definitions follow the specification's words, to be compared with the
code-derived `normalizeLoop` / `matchesKey` / `validTextures` above.
-/

/-- Spec-side: replace `_` and `-` separators with spaces. -/
def replaceSeps (s : List Char) : List Char :=
  s.map (fun c => if c = '_' ∨ c = '-' then ' ' else c)

/-- Spec-side normalization: extension stripped, separators replaced by
spaces, then lowercased. -/
def specNormalize (f : String) : List Char :=
  lowerL (replaceSeps (splitextRoot f.data))

/-- Spec-side matching relation: the normalized loop name contains the
lowercased category key as a substring, or the lowercased category key
contains the normalized loop name as a substring. -/
def specMatch (f : String) (key : String) : Prop :=
  IsSubstr (lowerL key.data) (specNormalize f) ∨
    IsSubstr (specNormalize f) (lowerL key.data)

/-- Spec-side decidable matching test, used to build the spec-side pool. -/
def specMatchB (f : String) (key : String) : Bool :=
  substrB (lowerL key.data) (specNormalize f) ||
    substrB (specNormalize f) (lowerL key.data)

/-- Spec-side pooled candidate set: the concatenation, over the active loops,
of the texture lists of all matching categories (duplicates kept). -/
def specPool (playing : List String) : List String :=
  playing.flatMap (fun f => (TEXTURE_MAP.filter (fun kv => specMatchB f kv.1)).flatMap Prod.snd)

theorem specNormalize_eq_normalizeLoop (f : String) :
    specNormalize f = normalizeLoop f := by
  simp [specNormalize, normalizeLoop, lowerL, replaceSeps, cleanChar, List.map_map,
    Function.comp]

theorem specMatchB_eq_matchesKey (f k : String) :
    specMatchB f k = matchesKey (normalizeLoop f) k := by
  simp [specMatchB, matchesKey, specNormalize_eq_normalizeLoop]

/-- The inner `for key, textures in TEXTURE_MAP.items()` loop, as a fold with
an arbitrary accumulator, equals appending the filtered-and-joined pools. -/
theorem innerFold_eq (clean : List Char) (L : List (String × List String))
    (acc : List String) :
    L.foldl (fun acc2 kv => if matchesKey clean kv.1 then acc2 ++ kv.2 else acc2) acc
      = acc ++ (L.filter (fun kv => matchesKey clean kv.1)).flatMap Prod.snd := by
  induction L generalizing acc with
  | nil => simp
  | cons kv L ih =>
    by_cases h : matchesKey clean kv.1
    · simp [List.foldl_cons, h, ih]
    · simp [List.foldl_cons, h, ih]

/-- The outer `for loop_file in self.playing` fold, with an arbitrary
accumulator, equals appending the spec-side pool. -/
theorem outerFold_eq (playing : List String) (acc : List String) :
    playing.foldl (fun acc loopFile =>
        TEXTURE_MAP.foldl (fun acc2 kv =>
          if matchesKey (normalizeLoop loopFile) kv.1 then acc2 ++ kv.2 else acc2) acc) acc
      = acc ++ specPool playing := by
  induction playing generalizing acc with
  | nil => simp [specPool]
  | cons f playing ih =>
    rw [List.foldl_cons, ih, innerFold_eq]
    simp [specPool, specMatchB_eq_matchesKey, List.append_assoc]

/-! ## AudioManager state and operations (audio_manager.py) -/

/-- The mutable state of an `AudioManager` instance. Playable `Sound`
handles are represented by the filename catalogs (`self.sounds.keys()`,
`self.sfx.keys()`, `self.textures.keys()`); `self.channels` is kept as its
key list. Wall-clock times, intervals and volumes are exact rationals. -/
structure AudioState where
  playing : List String
  channels : List String
  masterVolume : ℚ
  lastTextureTime : ℚ
  nextTextureInterval : ℚ
  weatherFreqRange : ℚ × ℚ
  soundsCatalog : List String
  sfxCatalog : List String
  texturesCatalog : List String
deriving DecidableEq

/-- `AudioManager.__init__`: empty playing/channel sets, master volume 1.0,
default Medium frequency range (30, 90); the construction-time clock reading
and the initial `random.uniform(30, 90)` interval draw are parameters. -/
def initAudioState (sounds sfx textures : List String) (t0 i0 : ℚ) : AudioState :=
  { playing := [], channels := [], masterVolume := 1,
    lastTextureTime := t0, nextTextureInterval := i0,
    weatherFreqRange := (30, 90),
    soundsCatalog := sounds, sfxCatalog := sfx, texturesCatalog := textures }

/-- `AudioManager.play_sound(filename, fade_ms)`: if the filename is a known
asset, start it looping, record the channel and append to `playing`;
otherwise a silent no-op. The `fade_ms` argument only shapes the pygame
fade-in and has no effect on the tracked state. -/
def play_sound (st : AudioState) (filename : String) : AudioState :=
  if filename ∈ st.soundsCatalog then
    { st with playing := st.playing ++ [filename],
              channels := st.channels ++ [filename] }
  else st

/-- `AudioManager.set_master_volume(level)`: clamp to [0, 1] and store; the
re-application to busy channels only touches pygame channel objects. -/
def set_master_volume (st : AudioState) (level : ℚ) : AudioState :=
  { st with masterVolume := max 0 (min 1 level) }

/-- `AudioManager.stop_all(fade_ms)`: fade out every playing sound (a pygame
side effect) and clear `playing` and `channels`. -/
def stop_all (st : AudioState) : AudioState :=
  { st with playing := [], channels := [] }

/-- `AudioManager.play_gong()`: if `"gong.mp3"` is in the sfx catalog, play
it at exactly the current master volume and report the playback event;
otherwise a silent no-op. -/
def play_gong (st : AudioState) : Option (String × ℚ) :=
  if "gong.mp3" ∈ st.sfxCatalog then some ("gong.mp3", st.masterVolume) else none

/-- `AudioManager.set_weather_frequency(level)`: a named preset selects the
frequency range, with unknown names falling back to (30, 90). -/
def set_weather_frequency (st : AudioState) (level : String) : AudioState :=
  let ranges : List (String × (ℚ × ℚ)) :=
    [("low", (60, 120)), ("medium", (30, 90)), ("high", (15, 45))]
  { st with weatherFreqRange := (ranges.lookup (String.mk (lowerL level.data))).getD (30, 90) }

/-- `AudioManager.play_random_texture()`. The `random.choice` call is
modelled by `choiceIdx`: the chosen element is `valid[choiceIdx % len]`.
`volDraw` is the `random.uniform(0.3, 0.6)` draw. Returns the (unchanged)
state together with the playback event `(texture_file, volume)` if a
texture was actually played. -/
def play_random_texture (st : AudioState) (choiceIdx : ℕ) (volDraw : ℚ) :
    AudioState × Option (String × ℚ) :=
  if st.playing = [] then (st, none)
  else
    let valid := validTextures st.playing
    if valid = [] then (st, none)
    else
      let texture := valid.getD (choiceIdx % valid.length) ""
      if texture ∈ st.texturesCatalog then
        (st, some (texture, st.masterVolume * volDraw))
      else (st, none)

/-- `AudioManager.update_textures()`: when the elapsed time since the last
fire exceeds the current interval, attempt one texture fire, then advance
`last_texture_time` to `now` and redraw the interval
(`random.uniform(*self.weather_freq_range)`, modelled by `intervalDraw`). -/
def update_textures (st : AudioState) (now : ℚ) (choiceIdx : ℕ)
    (volDraw intervalDraw : ℚ) : AudioState × Option (String × ℚ) :=
  if now - st.lastTextureTime > st.nextTextureInterval then
    let r := play_random_texture st choiceIdx volDraw
    ({ r.1 with lastTextureTime := now, nextTextureInterval := intervalDraw }, r.2)
  else (st, none)

/-- `play_random_texture` never mutates the tracked state. -/
theorem play_random_texture_fst (st : AudioState) (c : ℕ) (u : ℚ) :
    (play_random_texture st c u).1 = st := by
  unfold play_random_texture
  split
  · rfl
  · dsimp only
    split
    · rfl
    · split <;> rfl

/-! ## Operation sequences on the audio state -/

/-- One call into the `AudioManager` API, as issued by the session loop:
explicit `set_master_volume` (session start / CLI), the `+`/`-` key handlers
(which call `set_master_volume(master_volume ± step)`), `play_sound`,
`stop_all`, a `update_textures` tick (with its clock reading and random
draws), and `set_weather_frequency`. -/
inductive AOp where
  | setMV (level : ℚ)
  | volUp (step : ℚ)
  | volDown (step : ℚ)
  | start (filename : String)
  | stopAllOp
  | tick (now : ℚ) (choiceIdx : ℕ) (volDraw intervalDraw : ℚ)
  | setFreq (level : String)
deriving DecidableEq

/-- Apply one operation to the audio state. -/
def applyOp (st : AudioState) : AOp → AudioState
  | .setMV l => set_master_volume st l
  | .volUp s => set_master_volume st (st.masterVolume + s)
  | .volDown s => set_master_volume st (st.masterVolume - s)
  | .start f => play_sound st f
  | .stopAllOp => stop_all st
  | .tick now c u i => (update_textures st now c u i).1
  | .setFreq l => set_weather_frequency st l

/-- Run a finite sequence of operations left to right. -/
def runOps (st : AudioState) (ops : List AOp) : AudioState :=
  ops.foldl applyOp st

theorem applyOp_soundsCatalog (st : AudioState) (op : AOp) :
    (applyOp st op).soundsCatalog = st.soundsCatalog := by
  cases op with
  | start f =>
    simp only [applyOp, play_sound]
    split <;> rfl
  | tick now c u i =>
    simp only [applyOp, update_textures]
    split
    · simp [play_random_texture_fst]
    · rfl
  | _ => rfl

theorem runOps_soundsCatalog (ops : List AOp) (st : AudioState) :
    (runOps st ops).soundsCatalog = st.soundsCatalog := by
  induction ops generalizing st with
  | nil => rfl
  | cons op ops ih => rw [runOps, List.foldl_cons, ← runOps, ih, applyOp_soundsCatalog]

/-- Every operation either leaves the master volume unchanged or stores a
clamped value `max 0 (min 1 l)`. -/
theorem applyOp_masterVolume (st : AudioState) (op : AOp) :
    (applyOp st op).masterVolume = st.masterVolume ∨
      ∃ l, (applyOp st op).masterVolume = max 0 (min 1 l) := by
  cases op with
  | setMV l => exact Or.inr ⟨l, rfl⟩
  | volUp s => exact Or.inr ⟨st.masterVolume + s, rfl⟩
  | volDown s => exact Or.inr ⟨st.masterVolume - s, rfl⟩
  | start f =>
    left
    simp only [applyOp, play_sound]
    split <;> rfl
  | stopAllOp => exact Or.inl rfl
  | tick now c u i =>
    left
    simp only [applyOp, update_textures]
    split
    · simp [play_random_texture_fst]
    · rfl
  | setFreq l => exact Or.inl rfl

theorem clamp_mem_unit (l : ℚ) : 0 ≤ max 0 (min 1 l) ∧ max 0 (min 1 l) ≤ 1 :=
  ⟨le_max_left 0 _, max_le (by norm_num) (min_le_left 1 l)⟩

theorem runOps_masterVolume_unit (ops : List AOp) (st : AudioState)
    (h0 : 0 ≤ st.masterVolume) (h1 : st.masterVolume ≤ 1) :
    0 ≤ (runOps st ops).masterVolume ∧ (runOps st ops).masterVolume ≤ 1 := by
  induction ops generalizing st with
  | nil => exact ⟨h0, h1⟩
  | cons op ops ih =>
    rw [runOps, List.foldl_cons, ← runOps]
    rcases applyOp_masterVolume st op with h | ⟨l, h⟩
    · exact ih _ (h ▸ h0) (h ▸ h1)
    · exact ih _ (h ▸ (clamp_mem_unit l).1) (h ▸ (clamp_mem_unit l).2)

/-! ## The spec-side description of the active-loop set (spec §8)

"the active-loop set equals exactly the loops started since the last
`stopAll`": a file is active iff the operation sequence splits around a
successful `start` of that file with no `stopAll` afterwards. -/

/-- `f` was started (and was a known asset) after the most recent
`stopAll` in `ops` (or anywhere, if `stopAll` never occurs). -/
def startedSince (known : List String) (f : String) (ops : List AOp) : Prop :=
  ∃ pre post, ops = pre ++ AOp.start f :: post ∧ f ∈ known ∧ AOp.stopAllOp ∉ post

theorem startedSince_nil (known : List String) (f : String) :
    ¬ startedSince known f [] := by
  rintro ⟨pre, post, h, -, -⟩
  exact List.not_mem_nil _ (h ▸ List.mem_append_right pre (List.mem_cons_self _ post))

theorem startedSince_cons (known : List String) (f : String) (op : AOp)
    (ops : List AOp) :
    startedSince known f (op :: ops) ↔
      ((op = AOp.start f ∧ f ∈ known ∧ AOp.stopAllOp ∉ ops) ∨
        startedSince known f ops) := by
  constructor
  · rintro ⟨pre, post, heq, hk, hpost⟩
    cases pre with
    | nil =>
      injection heq with ho hrest
      exact Or.inl ⟨ho, hk, hrest ▸ hpost⟩
    | cons a pre =>
      injection heq with ho hrest
      exact Or.inr ⟨pre, post, hrest, hk, hpost⟩
  · rintro (⟨rfl, hk, hops⟩ | ⟨pre, post, rfl, hk, hpost⟩)
    · exact ⟨[], ops, rfl, hk, hops⟩
    · exact ⟨op :: pre, post, rfl, hk, hpost⟩

theorem update_textures_playing (st : AudioState) (now : ℚ) (c : ℕ) (u i : ℚ) :
    (update_textures st now c u i).1.playing = st.playing := by
  unfold update_textures
  split
  · simp [play_random_texture_fst]
  · rfl

/-- Membership in the running state's `playing` list, for an arbitrary
starting state: a file is listed iff it was already listed and no `stopAll`
occurred, or it was successfully started after the last `stopAll`. -/
theorem runOps_playing_mem (ops : List AOp) (st : AudioState) (f : String) :
    f ∈ (runOps st ops).playing ↔
      (f ∈ st.playing ∧ AOp.stopAllOp ∉ ops) ∨ startedSince st.soundsCatalog f ops := by
  induction ops generalizing st with
  | nil => simp [runOps, startedSince_nil]
  | cons op ops ih =>
    rw [runOps, List.foldl_cons, ← runOps, ih, applyOp_soundsCatalog,
      startedSince_cons]
    cases op with
    | start g =>
      simp only [applyOp, play_sound]
      by_cases hg : g ∈ st.soundsCatalog
      · rw [if_pos hg]
        simp only [List.mem_append, List.mem_cons, List.not_mem_nil, or_false,
          AOp.start.injEq]
        constructor
        · rintro (⟨hf | rfl, hns⟩ | hS)
          · exact Or.inl ⟨hf, by simp [hns]⟩
          · exact Or.inr (Or.inl ⟨rfl, hg, hns⟩)
          · exact Or.inr (Or.inr hS)
        · rintro (⟨hf, hns⟩ | ⟨rfl, hk, hns⟩ | hS)
          · exact Or.inl ⟨Or.inl hf, fun hc => hns (by simpa using hc)⟩
          · exact Or.inl ⟨Or.inr rfl, hns⟩
          · exact Or.inr hS
      · rw [if_neg hg]
        simp only [List.mem_cons, AOp.start.injEq]
        constructor
        · rintro (⟨hf, hns⟩ | hS)
          · exact Or.inl ⟨hf, by simp [hns]⟩
          · exact Or.inr (Or.inr hS)
        · rintro (⟨hf, hns⟩ | ⟨rfl, hk, hns⟩ | hS)
          · exact Or.inl ⟨hf, fun hc => hns (by simpa using hc)⟩
          · exact absurd hk hg
          · exact Or.inr hS
    | stopAllOp => simp [applyOp, stop_all, List.mem_cons]
    | setMV l => simp [applyOp, set_master_volume, List.mem_cons]
    | volUp s => simp [applyOp, set_master_volume, List.mem_cons]
    | volDown s => simp [applyOp, set_master_volume, List.mem_cons]
    | setFreq l => simp [applyOp, set_weather_frequency, List.mem_cons]
    | tick now c u i => simp [applyOp, update_textures_playing, List.mem_cons]

/-! ## Session lifecycle (main.py, FocusApp)

`FocusApp.run` is modelled as the trace of externally observable calls it
makes: loop starts, stats commits (`StatsManager.update_time`), `stop_all`
invocations and the gong playback. A `KeyboardInterrupt` can be raised at
the points the control flow distinguishes: while the Running poll loop is
active, during the post-completion fade-out `time.sleep`, or during the
4-second completion-chime wait. The `except KeyboardInterrupt` handler
commits stats again and stops audio again. -/

/-- Externally observable session events. -/
inductive Event where
  | loopStart (file : String)
  | statsCommit (seconds : ℚ)
  | stopAllEv
  | gongPlay (file : String) (vol : ℚ)
deriving DecidableEq

/-- Where (if anywhere) a `KeyboardInterrupt` is raised during `run`. -/
inductive InterruptPoint where
  | noInterrupt
  | duringLoop
  | duringFadeWait
  | duringGongWait
deriving DecidableEq

/-- The session-relevant settings read by `FocusApp.run`. -/
structure RunConfig where
  fadeDuration : ℚ
  playGong : Bool
deriving DecidableEq

/-- The gong playback events of `self.audio.play_gong()`. -/
def gongEvents (st : AudioState) : List Event :=
  match play_gong st with
  | some fv => [Event.gongPlay fv.1 fv.2]
  | none => []

/-- The tail of the `try` block after natural completion of the Running
loop (main.py lines 802-817): commit elapsed seconds, stop all audio, wait
the fade, and play the gong (plus its wait) if the setting is enabled. -/
def completionTail (cfg : RunConfig) (st : AudioState) (eNat : ℚ) : List Event :=
  [Event.statsCommit eNat, Event.stopAllEv] ++
    (if cfg.playGong then gongEvents st else [])

/-- The `except KeyboardInterrupt` handler (main.py lines 824-853): commit
the elapsed seconds measured at the interrupt, then stop all audio. -/
def interruptTail (eInt : ℚ) : List Event :=
  [Event.statsCommit eInt, Event.stopAllEv]

/-- The observable event trace of `FocusApp.run` from the start of audio
playback onward. `st` is the audio state during the session (its catalogs
are fixed; its master volume is the value current at session end), `files`
the resolved selection, `eNat` the wall-clock elapsed seconds measured when
the Running loop exits naturally, and `eInt` the elapsed seconds measured
inside the interrupt handler. An interrupt during the fade-out wait or the
gong wait arrives after the natural-completion commit has already run, so
the handler appends a second commit. An interrupt during the gong wait can
only occur when the gong setting is enabled (otherwise there is no such
wait and the run completes normally). -/
def sessionRun (cfg : RunConfig) (st : AudioState) (files : List String)
    (eNat eInt : ℚ) (ip : InterruptPoint) : List Event :=
  (files.filter (fun f => f ∈ st.soundsCatalog)).map Event.loopStart ++
    match ip with
    | .noInterrupt => completionTail cfg st eNat
    | .duringLoop => interruptTail eInt
    | .duringFadeWait =>
        [Event.statsCommit eNat, Event.stopAllEv] ++ interruptTail eInt
    | .duringGongWait =>
        if cfg.playGong then
          [Event.statsCommit eNat, Event.stopAllEv] ++ gongEvents st ++ interruptTail eInt
        else completionTail cfg st eNat

/-- Number of `StatsManager.update_time` invocations in a trace. -/
def commitCount (tr : List Event) : ℕ :=
  tr.countP (fun e => match e with | Event.statsCommit _ => true | _ => false)

/-! ### Selection phase (main.py, FocusApp.phase_one_selection) -/

/-- The `--quick` CLI path: fuzzy-resolve the requested sound against the
catalog (first filename whose lowercased name contains the lowercased
query); an unmatched or absent query resolves to the empty list ("Playing
silence") and the phase still succeeds, returning `some` selection. -/
def phaseOneQuick (sounds : List String) (cliSound : Option String) :
    Option (List String) :=
  some (match cliSound with
        | none => []
        | some q =>
          match sounds.find? (fun f => substrB (lowerL q.data) (lowerL f.data)) with
          | some f => [f]
          | none => [])

/-- `sorted(list(self.audio.sounds.keys()))` with 1-based string ids
(`self.sound_map`). -/
def soundMap (sounds : List String) : List (String × String) :=
  (sounds.insertionSort (fun a b => a ≤ b)).enum.map (fun p => (toString (p.1 + 1), p.2))

/-- Python `str.isspace` characters relevant here (ASCII whitespace). -/
def isSpaceChar (c : Char) : Bool :=
  c = ' ' ∨ c = '\t' ∨ c = '\n' ∨ c = '\r' ∨ c = '\x0b' ∨ c = '\x0c'

/-- Python `str.strip()` on a character list. -/
def stripL (s : List Char) : List Char :=
  ((s.dropWhile isSpaceChar).reverse.dropWhile isSpaceChar).reverse

/-- Python `selection_str.split(",")`. -/
def splitCommas : List Char → List (List Char)
  | [] => [[]]
  | c :: rest =>
    let r := splitCommas rest
    if c = ',' then [] :: r
    else
      match r with
      | h :: t => (c :: h) :: t
      | [] => [[c]]

/-- Parsing of an interactive selection string: split on commas, strip each
id, and keep the filenames of the ids present in `sound_map` (in input
order, duplicates kept). -/
def parseSelection (sounds : List String) (sel : String) : List String :=
  ((splitCommas sel.data).map stripL).filterMap
    (fun sid => (soundMap sounds).lookup (String.mk sid))

/-- The interactive selection phase for one submitted selection string that
is neither empty nor the settings key (both of which re-prompt instead of
deciding): if no id resolves, the phase fails (`None` — the caller exits);
otherwise it succeeds with the resolved files. -/
def phaseOneInteractive (sounds : List String) (sel : String) :
    Option (List String) :=
  let files := parseSelection sounds sel
  if files = [] then none else some files

/-- The `if files is None: return` gate at the top of `FocusApp.run`: the
session proceeds to Running exactly when the selection phase returned a
(possibly empty) list. -/
def reachesRunning (sel : Option (List String)) : Bool := sel.isSome

/-- `FocusApp.run` from the selection gate onward: an early exit produces no
observable events at all. -/
def runFromSelection (cfg : RunConfig) (st : AudioState) (eNat eInt : ℚ)
    (ip : InterruptPoint) : Option (List String) → List Event
  | none => []
  | some files => sessionRun cfg st files eNat eInt ip

/-! ## Concrete evaluation helpers -/

theorem validTextures_seaBreeze : validTextures ["sea-breeze.mp3"] = [] := by decide

theorem validTextures_typing : validTextures ["typing-sound.mp3"] = [] := by decide

theorem validTextures_gentleRain :
    validTextures ["gentle-rain.mp3"] =
      ["distant-thunder.mp3", "winter-wind.mp3", "wind-chimes.mp3"] := by decide

/-- `play_random_texture` on a state with no candidate pool is a no-op. -/
theorem play_random_texture_empty_pool (st : AudioState) (c : ℕ) (u : ℚ)
    (hv : validTextures st.playing = []) :
    play_random_texture st c u = (st, none) := by
  unfold play_random_texture
  split
  · rfl
  · simp [hv]

/-! ## Claim theorems -/

/-- Claim C3: for every active loop filename and every CategoryTable key,
the scheduler counts the loop as matching the category iff the normalized
loop name (extension stripped, `_`/`-` replaced by spaces, lowercased)
contains the lowercased category key as a substring, or the lowercased
category key contains the normalized loop name as a substring; and the
pooled candidate set is the concatenation of the texture lists of all
matching categories, with duplicates kept. -/
theorem c3_fuzzy_match_pool :
    (∀ f k, matchesKey (normalizeLoop f) k = true ↔ specMatch f k) ∧
    (∀ playing, validTextures playing = specPool playing) := by
  constructor
  · intro f k
    rw [matchesKey, Bool.or_eq_true, substrB_iff, substrB_iff, specMatch,
      specNormalize_eq_normalizeLoop]
  · intro playing
    simpa [validTextures] using outerFold_eq playing []

/-- Claim C4 counterexample: contrary to the claim, a loop named
"sea-breeze" (normalized to "sea breeze") does NOT match category
"Sea Wave" under the bidirectional substring rule — neither "sea wave" is
a substring of "sea breeze" nor vice versa — and with active loop
"sea-breeze.mp3" the pooled candidate set is empty, so no Sea Wave texture
can be selected. -/
theorem c4_counterexample :
    matchesKey (normalizeLoop "sea-breeze.mp3") "Sea Wave" = false ∧
    validTextures ["sea-breeze.mp3"] = [] := by decide

/-- Claim C4 (amended): a loop named "sea-breeze" matches no category at
all; with active loop "sea-breeze.mp3" a due scheduler fire has an empty
candidate pool and plays nothing, while `lastFireTimestamp` and
`nextIntervalSeconds` still advance. -/
theorem c4_amended (st : AudioState) (now : ℚ) (c : ℕ) (u i : ℚ)
    (hplay : st.playing = ["sea-breeze.mp3"])
    (hdue : now - st.lastTextureTime > st.nextTextureInterval) :
    (update_textures st now c u i).1.lastTextureTime = now ∧
    (update_textures st now c u i).1.nextTextureInterval = i ∧
    (update_textures st now c u i).2 = none := by
  have hprt : play_random_texture st c u = (st, none) :=
    play_random_texture_empty_pool st c u (by rw [hplay, validTextures_seaBreeze])
  unfold update_textures
  rw [if_pos hdue, hprt]
  exact ⟨rfl, rfl, rfl⟩

/-- Concrete session state with the sea-breeze loop active and a due fire. -/
def seaState : AudioState :=
  { playing := ["sea-breeze.mp3"], channels := ["sea-breeze.mp3"], masterVolume := 1,
    lastTextureTime := 0, nextTextureInterval := 60, weatherFreqRange := (30, 90),
    soundsCatalog := ["sea-breeze.mp3"], sfxCatalog := [],
    texturesCatalog := ["winter-wind.mp3"] }

/-- Witness for `c4_amended` at a concrete due state. -/
theorem c4_amended_witness :
    (update_textures seaState 100 0 (2/5) 45).1.lastTextureTime = 100 ∧
    (update_textures seaState 100 0 (2/5) 45).1.nextTextureInterval = 45 ∧
    (update_textures seaState 100 0 (2/5) 45).2 = none :=
  c4_amended seaState 100 0 (2/5) 45 rfl (by norm_num [seaState])

/-- Claim C5: on every scheduler tick where the elapsed time since the last
fire exceeds the current interval, `last_texture_time` is set to `now` and
the interval is redrawn (the fresh `random.uniform` draw from the unchanged
frequency range), regardless of whether a texture actually played; in
particular with active loops ["typing-sound.mp3"] nothing is played yet
both values still advance. -/
theorem c5_scheduler_advance (st : AudioState) (now : ℚ) (c : ℕ) (u i : ℚ)
    (hdue : now - st.lastTextureTime > st.nextTextureInterval) :
    (update_textures st now c u i).1.lastTextureTime = now ∧
    (update_textures st now c u i).1.nextTextureInterval = i ∧
    (update_textures st now c u i).1.weatherFreqRange = st.weatherFreqRange ∧
    (st.playing = ["typing-sound.mp3"] → (update_textures st now c u i).2 = none) := by
  unfold update_textures
  rw [if_pos hdue]
  refine ⟨rfl, rfl, ?_, ?_⟩
  · simp [play_random_texture_fst]
  · intro hplay
    have hprt : play_random_texture st c u = (st, none) :=
      play_random_texture_empty_pool st c u (by rw [hplay, validTextures_typing])
    rw [hprt]

/-- Concrete state with the unmatched typing-sound loop and a due fire. -/
def typingState : AudioState :=
  { playing := ["typing-sound.mp3"], channels := ["typing-sound.mp3"], masterVolume := 1,
    lastTextureTime := 0, nextTextureInterval := 60, weatherFreqRange := (30, 90),
    soundsCatalog := ["typing-sound.mp3"], sfxCatalog := [],
    texturesCatalog := ["keyboard.mp3"] }

/-- Witness for `c5_scheduler_advance` at a concrete due state. -/
theorem c5_scheduler_advance_witness :
    (update_textures typingState 100 7 (2/5) 45).1.lastTextureTime = 100 ∧
    (update_textures typingState 100 7 (2/5) 45).1.nextTextureInterval = 45 ∧
    (update_textures typingState 100 7 (2/5) 45).1.weatherFreqRange = typingState.weatherFreqRange ∧
    (typingState.playing = ["typing-sound.mp3"] →
      (update_textures typingState 100 7 (2/5) 45).2 = none) :=
  c5_scheduler_advance typingState 100 7 (2/5) 45 (by norm_num [typingState])

/-- Concrete state with the gentle-rain loop active, master volume 1, a due
fire, and all three Gentle Rain textures present in the catalog. -/
def c6State : AudioState :=
  { playing := ["gentle-rain.mp3"], channels := ["gentle-rain.mp3"], masterVolume := 1,
    lastTextureTime := 0, nextTextureInterval := 60, weatherFreqRange := (30, 90),
    soundsCatalog := ["gentle-rain.mp3"], sfxCatalog := [],
    texturesCatalog := ["distant-thunder.mp3", "winter-wind.mp3", "wind-chimes.mp3"] }

/-- Evaluation of `play_random_texture` with the gentle-rain loop active:
the candidate pool is exactly the Gentle Rain textures, the choice is
`pool[choiceIdx % 3]`, and it plays at `masterVolume * volDraw` iff present
in the texture catalog. -/
theorem play_random_texture_gentleRain (st : AudioState) (c : ℕ) (u : ℚ)
    (hplay : st.playing = ["gentle-rain.mp3"]) :
    play_random_texture st c u =
      (st,
        let t := ["distant-thunder.mp3", "winter-wind.mp3",
                  "wind-chimes.mp3"].getD (c % 3) ""
        if t ∈ st.texturesCatalog then some (t, st.masterVolume * u) else none) := by
  unfold play_random_texture
  rw [hplay, validTextures_gentleRain]
  simp
  split <;> rfl

/-- Claim C6 counterexample: `random.uniform(0.3, 0.6)` is
`0.3 + 0.3 * random()` with `random() ∈ [0, 1)`, so the draw 0.3 itself is
attainable (at `random() = 0`). At that draw, with master volume 1, the
played texture's volume is exactly `0.3 * MasterVolume`, which is NOT
strictly between `0.3*MasterVolume` and `0.6*MasterVolume` as claimed. -/
theorem c6_counterexample :
    (update_textures c6State 100 0 (3/10) 45).2 = some ("distant-thunder.mp3", 3/10) ∧
    c6State.masterVolume = 1 ∧
    ¬ ((3 : ℚ)/10 * c6State.masterVolume < 3/10) := by
  refine ⟨?_, rfl, by norm_num [c6State]⟩
  have hdue : (100 : ℚ) - c6State.lastTextureTime > c6State.nextTextureInterval := by
    norm_num [c6State]
  unfold update_textures
  rw [if_pos hdue, play_random_texture_gentleRain c6State 0 (3/10) rfl]
  norm_num [c6State]

/-- Claim C6 (amended): with active loops exactly ["gentle-rain.mp3"], a due
scheduler fire draws its candidate from exactly the three Gentle Rain
textures and no other, and when a texture is played its volume `v`
satisfies `0.3*MasterVolume ≤ v ≤ 0.6*MasterVolume` (the uniform draw lies
in [0.3, 0.6), so the lower bound can be attained; the upper bound is
strict whenever `MasterVolume > 0`). -/
theorem c6_amended (st : AudioState) (now : ℚ) (c : ℕ) (u i : ℚ)
    (hplay : st.playing = ["gentle-rain.mp3"])
    (hm : 0 ≤ st.masterVolume)
    (hdue : now - st.lastTextureTime > st.nextTextureInterval)
    (hu1 : 3/10 ≤ u) (hu2 : u < 6/10) :
    validTextures st.playing =
      ["distant-thunder.mp3", "winter-wind.mp3", "wind-chimes.mp3"] ∧
    ∀ f v, (update_textures st now c u i).2 = some (f, v) →
      (f = "distant-thunder.mp3" ∨ f = "winter-wind.mp3" ∨ f = "wind-chimes.mp3") ∧
      3/10 * st.masterVolume ≤ v ∧ v ≤ 6/10 * st.masterVolume ∧
      (0 < st.masterVolume → v < 6/10 * st.masterVolume) := by
  refine ⟨by rw [hplay, validTextures_gentleRain], ?_⟩
  intro f v hfv
  have hsnd : (update_textures st now c u i).2 = (play_random_texture st c u).2 := by
    unfold update_textures
    rw [if_pos hdue]
  rw [hsnd, play_random_texture_gentleRain st c u hplay] at hfv
  simp only at hfv
  by_cases ht :
      (["distant-thunder.mp3", "winter-wind.mp3", "wind-chimes.mp3"].getD (c % 3) "")
        ∈ st.texturesCatalog
  · rw [if_pos ht] at hfv
    simp only [Option.some.injEq, Prod.mk.injEq] at hfv
    obtain ⟨hf1, hf2⟩ := hfv
    constructor
    · have h3 : c % 3 = 0 ∨ c % 3 = 1 ∨ c % 3 = 2 := by omega
      rcases h3 with h | h | h <;> rw [h] at hf1 <;> simp at hf1 <;> tauto
    · subst hf2
      refine ⟨?_, ?_, ?_⟩
      · calc 3/10 * st.masterVolume = st.masterVolume * (3/10) := by ring
        _ ≤ st.masterVolume * u := mul_le_mul_of_nonneg_left hu1 hm
      · calc st.masterVolume * u ≤ st.masterVolume * (6/10) :=
              mul_le_mul_of_nonneg_left hu2.le hm
        _ = 6/10 * st.masterVolume := by ring
      · intro hpos
        calc st.masterVolume * u < st.masterVolume * (6/10) :=
              mul_lt_mul_of_pos_left hu2 hpos
        _ = 6/10 * st.masterVolume := by ring
  · rw [if_neg ht] at hfv
    exact absurd hfv (by simp)

/-- Witness for `c6_amended` at a concrete due state with an interior draw. -/
theorem c6_amended_witness :
    validTextures c6State.playing =
      ["distant-thunder.mp3", "winter-wind.mp3", "wind-chimes.mp3"] ∧
    ∀ f v, (update_textures c6State 100 1 (2/5) 45).2 = some (f, v) →
      (f = "distant-thunder.mp3" ∨ f = "winter-wind.mp3" ∨ f = "wind-chimes.mp3") ∧
      3/10 * c6State.masterVolume ≤ v ∧ v ≤ 6/10 * c6State.masterVolume ∧
      (0 < c6State.masterVolume → v < 6/10 * c6State.masterVolume) :=
  c6_amended c6State 100 1 (2/5) 45 rfl (by norm_num [c6State])
    (by norm_num [c6State]) (by norm_num) (by norm_num)

/-- Claim C7: `set_master_volume(level)` stores `max(0, min(1, level))`, and
consequently the master volume is in [0, 1] after every sequence of
operations issued from a freshly constructed `AudioManager` (including
repeated volume-up/volume-down key adjustments during Running). -/
theorem c7_master_volume_clamp :
    (∀ st level, (set_master_volume st level).masterVolume = max 0 (min 1 level)) ∧
    (∀ sounds sfx textures t0 i0 ops,
      0 ≤ (runOps (initAudioState sounds sfx textures t0 i0) ops).masterVolume ∧
      (runOps (initAudioState sounds sfx textures t0 i0) ops).masterVolume ≤ 1) := by
  refine ⟨fun st level => rfl, fun sounds sfx textures t0 i0 ops => ?_⟩
  exact runOps_masterVolume_unit ops _ (by norm_num [initAudioState])
    (by norm_num [initAudioState])

/-- Claim C8: for every finite sequence of `AudioManager` calls from a fresh
instance, the active-loop set contains a file iff it is a known asset id
successfully started since the most recent `stop_all` (or since
construction, if `stop_all` was never called); and `stop_all` clears the
set entirely. -/
theorem c8_active_loops :
    (∀ sounds sfx textures t0 i0 ops f,
      f ∈ (runOps (initAudioState sounds sfx textures t0 i0) ops).playing ↔
        startedSince sounds f ops) ∧
    (∀ st, (stop_all st).playing = []) := by
  refine ⟨fun sounds sfx textures t0 i0 ops f => ?_, fun st => rfl⟩
  rw [runOps_playing_mem]
  simp [initAudioState]

/-- Claim C9: `stop_all` is idempotent-safe — it is a total operation (the
model raises nothing), calling it twice in a row yields the same state as
a single call, and after one call the observable active-loop set and
channel set are both empty. -/
theorem c9_stop_all_idempotent :
    ∀ st : AudioState, stop_all (stop_all st) = stop_all st ∧
      (stop_all st).playing = [] ∧ (stop_all st).channels = [] :=
  fun _ => ⟨rfl, rfl, rfl⟩

/-- Claim C10: with the completion-chime setting enabled and a naturally
completed session, a gong event appears in the session trace iff
"gong.mp3" is present in the sfx catalog (otherwise the chime is a silent
no-op), and any gong event plays "gong.mp3" at exactly the current master
volume with no additional scaling. -/
theorem c10_gong (cfg : RunConfig) (st : AudioState) (files : List String)
    (eNat eInt : ℚ) (hg : cfg.playGong = true) :
    ((∃ f v, Event.gongPlay f v ∈
        sessionRun cfg st files eNat eInt InterruptPoint.noInterrupt) ↔
      "gong.mp3" ∈ st.sfxCatalog) ∧
    (∀ f v, Event.gongPlay f v ∈
        sessionRun cfg st files eNat eInt InterruptPoint.noInterrupt →
      f = "gong.mp3" ∧ v = st.masterVolume) := by
  have htr : ∀ f v,
      (Event.gongPlay f v ∈
        sessionRun cfg st files eNat eInt InterruptPoint.noInterrupt) ↔
        Event.gongPlay f v ∈ gongEvents st := by
    intro f v
    simp [sessionRun, completionTail, hg]
  by_cases hmem : "gong.mp3" ∈ st.sfxCatalog
  · have hge : gongEvents st = [Event.gongPlay "gong.mp3" st.masterVolume] := by
      simp [gongEvents, play_gong, hmem]
    constructor
    · exact ⟨fun _ => hmem,
        fun _ => ⟨"gong.mp3", st.masterVolume, (htr _ _).mpr (by simp [hge])⟩⟩
    · intro f v h
      rw [htr, hge] at h
      simp only [List.mem_singleton, Event.gongPlay.injEq] at h
      exact h
  · have hge : gongEvents st = [] := by
      simp [gongEvents, play_gong, hmem]
    constructor
    · constructor
      · rintro ⟨f, v, h⟩
        rw [htr, hge] at h
        exact absurd h (List.not_mem_nil _)
      · intro h
        exact absurd h hmem
    · intro f v h
      rw [htr, hge] at h
      exact absurd h (List.not_mem_nil _)

/-- Concrete audio state for the C10 witness: gong present, master volume 1. -/
def gongState : AudioState := initAudioState [] ["gong.mp3"] [] 0 60

/-- Witness for `c10_gong` with the chime setting enabled. -/
theorem c10_gong_witness :
    ((∃ f v, Event.gongPlay f v ∈
        sessionRun ⟨2, true⟩ gongState [] 5 5 InterruptPoint.noInterrupt) ↔
      "gong.mp3" ∈ gongState.sfxCatalog) ∧
    (∀ f v, Event.gongPlay f v ∈
        sessionRun ⟨2, true⟩ gongState [] 5 5 InterruptPoint.noInterrupt →
      f = "gong.mp3" ∧ v = gongState.masterVolume) :=
  c10_gong ⟨2, true⟩ gongState [] 5 5 rfl

/-- Concrete session state for the C1 evaluation. -/
def c1State : AudioState := initAudioState ["keyboard.mp3"] ["gong.mp3"] [] 0 60

/-- Claim C1 (code bug): the stats commit (`StatsManager.update_time`) runs
exactly once on natural completion and once for an interrupt raised while
the Running loop is active — but a `KeyboardInterrupt` raised during the
post-completion fade-out wait (`time.sleep` after `stop_all`, main.py line
809) or during the completion-chime wait (line 814) lands in the
`except KeyboardInterrupt` handler, which commits the elapsed seconds a
second time (lines 836-840): the elapsed seconds are committed twice,
contradicting the claim and the spec's "no double-commit" requirement. -/
theorem c1_stats_commit_double :
    commitCount (sessionRun ⟨2, true⟩ c1State ["keyboard.mp3"] 1500 1500
      InterruptPoint.noInterrupt) = 1 ∧
    commitCount (sessionRun ⟨2, true⟩ c1State ["keyboard.mp3"] 1500 900
      InterruptPoint.duringLoop) = 1 ∧
    commitCount (sessionRun ⟨2, true⟩ c1State ["keyboard.mp3"] 1500 1501
      InterruptPoint.duringFadeWait) = 2 ∧
    commitCount (sessionRun ⟨2, true⟩ c1State ["keyboard.mp3"] 1500 1505
      InterruptPoint.duringGongWait) = 2 :=
  ⟨rfl, rfl, rfl, rfl⟩

/-- Claim C2 counterexample: in the `--quick` CLI path, an unresolvable
sound query resolves to the empty selection yet the phase still returns
`some []` ("Playing silence"), the `files is None` gate does not fire, the
session reaches Running with an empty loop set, and the stats commit still
happens at completion — contradicting "no session with an empty resolved
loop set ever reaches Running" and "no stats ever written". -/
theorem c2_counterexample :
    phaseOneQuick ["keyboard.mp3"] (some "rain") = some [] ∧
    reachesRunning (phaseOneQuick ["keyboard.mp3"] (some "rain")) = true ∧
    commitCount (runFromSelection ⟨2, false⟩ (initAudioState ["keyboard.mp3"] [] [] 0 60)
      600 0 InterruptPoint.noInterrupt (phaseOneQuick ["keyboard.mp3"] (some "rain"))) = 1 := by
  refine ⟨by decide, rfl, rfl⟩

/-- Claim C2 (amended): in the interactive menu path, a submitted non-empty,
non-settings selection string resolving to no valid sound id makes the
selection phase return `None`, the run exits early, and the session trace
is empty (no loop started, no stats written); the `--quick` path, by
contrast, always proceeds to Running, even when its resolved selection is
empty. -/
theorem c2_amended (sounds : List String) (sel : String) (q : Option String)
    (cfg : RunConfig) (st : AudioState) (eNat eInt : ℚ) (ip : InterruptPoint)
    (_hne : sel ≠ "") (_hns : lowerL sel.data ≠ ['s'])
    (hsel : parseSelection sounds sel = []) :
    phaseOneInteractive sounds sel = none ∧
    runFromSelection cfg st eNat eInt ip (phaseOneInteractive sounds sel) = [] ∧
    reachesRunning (phaseOneQuick sounds q) = true := by
  have h1 : phaseOneInteractive sounds sel = none := by
    unfold phaseOneInteractive
    rw [hsel]
    rfl
  exact ⟨h1, by rw [h1]; rfl, rfl⟩

/-- Witness for `c2_amended`: one known sound, the user types the invalid
id "9". -/
theorem c2_amended_witness :
    phaseOneInteractive ["keyboard.mp3"] "9" = none ∧
    runFromSelection ⟨2, true⟩ (initAudioState ["keyboard.mp3"] [] [] 0 60) 0 0
      InterruptPoint.noInterrupt (phaseOneInteractive ["keyboard.mp3"] "9") = [] ∧
    reachesRunning (phaseOneQuick ["keyboard.mp3"] (some "rain")) = true :=
  c2_amended ["keyboard.mp3"] "9" (some "rain") ⟨2, true⟩
    (initAudioState ["keyboard.mp3"] [] [] 0 60) 0 0 InterruptPoint.noInterrupt
    (by decide) (by decide) (by decide)

end FocusCLI
